import Mathlib

/-!
Verification of the cluster convergence core and registry-credential helpers
of the epinio repository.

The Go code in `helpers/kubernetes/cluster.go` and
`internal/cli/clients/gitea/gitea.go` is shallowly embedded below.  Remote
reads (`Get`, `List`) are modelled as traces: functions from the evaluation
index (the poll iteration) to an `Except` result, so that a condition
function's behaviour over successive poll iterations is explicit.  Errors
carry a `notFound` marker mirroring `apierrors.IsNotFound`.
-/

namespace Epinio

/-- Model of a Kubernetes API error: `apierrors.IsNotFound` distinguishes
not-found errors from all others, which we tag with an opaque code. -/
inductive K8sError where
  | notFound : K8sError
  | other : Nat → K8sError
deriving DecidableEq, Repr

/-- Mirror of `apierrors.IsNotFound`. -/
def K8sError.isNotFound : K8sError → Bool
  | .notFound => true
  | .other _ => false

/-- Result of a bounded poll: `nil` error (success), `ErrWaitTimeout`, or the
hard error returned by the condition, propagated unchanged. -/
inductive PollResult (E : Type) where
  | success : PollResult E
  | timeout : PollResult E
  | hardError : E → PollResult E
deriving DecidableEq, Repr

/-- Modelled from the spec: the poll driver `wait.PollImmediate` of
k8s.io/apimachinery is not part of this repository; the spec describes it as
invoking the condition immediately (no initial delay), re-invoking at each
interval boundary until satisfied, until the condition returns a hard error,
or until the elapsed time exceeds the timeout.  Time is modelled by fuel:
`fuel` is the number of further interval boundaries inside the timeout
budget.  The condition is a trace `Nat → Bool × Option E`; evaluation `i`
is the condition's i-th invocation.  The second component of the result is
the index just after the last evaluation performed (so, started at 0, the
number of condition evaluations).  An error is checked before the boolean,
as in the driver (`if err != nil { return err }; if done { return nil }`). -/
def pollImmediateAux (cond : Nat → Bool × Option E) : Nat → Nat → PollResult E × Nat
  | i, fuel =>
    match cond i, fuel with
    | (_, some e), _ => (.hardError e, i + 1)
    | (true, none), _ => (.success, i + 1)
    | (false, none), 0 => (.timeout, i + 1)
    | (false, none), fuel' + 1 => pollImmediateAux cond (i + 1) fuel'

/-- Modelled from the spec: bounded immediate poll starting at evaluation 0. -/
def pollImmediate (cond : Nat → Bool × Option E) (fuel : Nat) :
    PollResult E × Nat :=
  pollImmediateAux cond 0 fuel

/-! ### Status condition vocabulary (string constants from the k8s API) -/

def ConditionTrue : String := "True"
def JobComplete : String := "Complete"
def JobFailed : String := "Failed"
def DeploymentAvailable : String := "Available"
def CRDEstablished : String := "Established"

/-- A status condition of a job / deployment / CRD: a `type` and a `status`
string (the k8s API encodes both as strings). -/
structure StatusCondition where
  type : String
  status : String
deriving DecidableEq, Repr

/-- `job.Status.Conditions`, the only part of a batch job the conditions
read. -/
structure JobStatus where
  conditions : List StatusCondition
deriving DecidableEq, Repr

structure Job where
  status : JobStatus
deriving DecidableEq, Repr

/-- `crd.Status.Conditions`, the only part of a CRD `WaitForCRD` reads. -/
structure CRD where
  conditions : List StatusCondition
deriving DecidableEq, Repr

/-- A pod list as returned by `ListPods`; only `Items`' length is read. -/
structure PodList where
  items : List Nat
deriving DecidableEq, Repr

/-- An opaque secret value; `WaitForSecret` returns it unread. -/
structure Secret where
  id : Nat
deriving DecidableEq, Repr

/-! ### Condition evaluators from `helpers/kubernetes/cluster.go` -/

/-- Embedding of the closure returned by `Cluster.IsJobDone`: `get i` is the
result of the `client.Jobs(namespace).Get` call at the i-th evaluation. -/
def IsJobDone (get : Nat → Except K8sError Job) (i : Nat) :
    Bool × Option K8sError :=
  match get i with
  | .error e => (false, some e)
  | .ok job =>
    (job.status.conditions.any (fun c =>
      c.status == ConditionTrue && (c.type == JobFailed || c.type == JobComplete)),
     none)

/-- Embedding of `Cluster.NamespaceExists`: `get` is the result of the
`Namespaces().Get` call. -/
def NamespaceExists (get : Except K8sError Unit) : Bool × Option K8sError :=
  match get with
  | .error e => if e.isNotFound then (false, none) else (false, some e)
  | .ok _ => (true, none)

/-- Embedding of the closure returned by `Cluster.NamespaceDoesNotExist`:
`exists, err := c.NamespaceExists(...)`; `return !exists, err`. -/
def NamespaceDoesNotExist (get : Except K8sError Unit) : Bool × Option K8sError :=
  (!(NamespaceExists get).1, (NamespaceExists get).2)

/-- Embedding of the closure returned by `Cluster.PodDoesNotExist`:
`list` is the result of the `c.ListPods` call at one evaluation. -/
def PodDoesNotExist (list : Except K8sError PodList) : Bool × Option K8sError :=
  match list with
  | .error _ => (true, none)
  | .ok podList => if podList.items.length > 0 then (false, none) else (true, none)

/-! ### Two-phase CRD wait -/

/-- The existence-phase condition of `WaitForCRD` (first `PollImmediate`):
a not-found error from the CRD `Get` yields another iteration, any other
error is hard, a successful read satisfies the phase. -/
def crdExistenceCond (get : Nat → Except K8sError CRD) (i : Nat) :
    Bool × Option K8sError :=
  match get i with
  | .error e => if e.isNotFound then (false, none) else (false, some e)
  | .ok _ => (true, none)

/-- The establishment-phase condition of `WaitForCRD` (second
`PollImmediate`): any error from the CRD `Get` is a hard error; a successful
read is satisfied when some status condition has type Established and
status True. -/
def crdEstablishedCond (get : Nat → Except K8sError CRD) (i : Nat) :
    Bool × Option K8sError :=
  match get i with
  | .error e => (false, some e)
  | .ok crd =>
    (crd.conditions.any (fun c =>
      c.type == CRDEstablished && c.status == ConditionTrue), none)

/-- Embedding of `Cluster.WaitForCRD`: the existence phase runs first and any
non-nil error from it is returned at once (`if err != nil { return err }`),
so the establishment phase's poll is only entered after the existence phase
succeeds.  `get1` and `get2` are the traces of CRD reads seen by the two
phases; both phases use the same timeout budget `fuel`.  The second
component counts the establishment-phase condition evaluations (zero when
the early return fires). -/
def WaitForCRD (get1 get2 : Nat → Except K8sError CRD) (fuel : Nat) :
    PollResult K8sError × Nat :=
  match pollImmediate (crdExistenceCond get1) fuel with
  | (.success, _) => pollImmediate (crdEstablishedCond get2) fuel
  | (r, _) => (r, 0)

/-- Embedding of `Cluster.WaitForSecret`: a poll loop over the `GetSecret`
trace threading the captured `secret` variable; a not-found read is another
iteration, any other read error aborts the poll with that error, a
successful read ends the wait with the secret just read. -/
def WaitForSecretAux (get : Nat → Except K8sError Secret) :
    Nat → Nat → Option Secret × PollResult K8sError
  | i, fuel =>
    match get i, fuel with
    | .ok s, _ => (some s, .success)
    | .error e, 0 =>
      if e.isNotFound then (none, .timeout) else (none, .hardError e)
    | .error e, fuel' + 1 =>
      if e.isNotFound then WaitForSecretAux get (i + 1) fuel'
      else (none, .hardError e)

def WaitForSecret (get : Nat → Except K8sError Secret) (fuel : Nat) :
    Option Secret × PollResult K8sError :=
  WaitForSecretAux get 0 fuel

/-! ### Platform detection and `GetCluster` memoization

A platform strategy is modelled by its identity, the boolean its `Detect`
probe would return against the live cluster, and its `Load` outcome.  The
instrumented runner records which probes were invoked and how many `Load`
calls happened, mirroring the control flow of `GetCluster`. -/

structure Platform where
  id : Nat
  detect : Bool
  loadResult : Option K8sError
deriving DecidableEq, Repr

/-- The environment a `GetCluster` call runs against: the outcome of
`kubeconfig.KubeConfig()`, of `kubernetes.NewForConfig`, the ordered
`SupportedPlatforms` list (with what their probes would answer), and the
`generic.NewPlatform()` fallback. -/
structure ClusterEnv where
  kubeConfig : Except K8sError Nat
  newForConfig : Except K8sError Nat
  platforms : List Platform
  generic : Platform
deriving Repr

/-- The `Cluster` struct: clientset, rest config, detected platform. -/
structure Cluster where
  Kubectl : Nat
  RestConfig : Nat
  platform : Platform
deriving DecidableEq, Repr

/-- Embedding of `Cluster.detectPlatform`, instrumented: the loop walks the
ordered platform list invoking each probe until one answers true; returns
the selected platform (if any) together with the list of platforms whose
`Detect` probe was invoked. -/
def detectPlatform : List Platform → Option Platform × List Platform
  | [] => (none, [])
  | p :: ps =>
    if p.detect then (some p, [p])
    else
      let (r, probed) := detectPlatform ps
      (r, p :: probed)

/-- Outcome of one `GetCluster` call: the returned value or error, the
memo variable (`clusterMemo`) after the call, the number of platform `Load`
invocations during the call, and whether platform detection ran. -/
structure GetClusterOut where
  result : Except K8sError Cluster
  memo : Option Cluster
  loadCalls : Nat
  detectRan : Bool
deriving Repr

/-- Embedding of `GetCluster`: if `clusterMemo` is set it is returned at
once; otherwise the kubeconfig is loaded, the clientset built, the platform
detected (falling back to generic when no probe matches), and the selected
platform's `Load` run; only after all of that succeeds is the memo set. -/
def GetCluster (env : ClusterEnv) (memo : Option Cluster) : GetClusterOut :=
  match memo with
  | some c => ⟨.ok c, memo, 0, false⟩
  | none =>
    match env.kubeConfig with
    | .error e => ⟨.error e, none, 0, false⟩
    | .ok restConfig =>
      match env.newForConfig with
      | .error e => ⟨.error e, none, 0, false⟩
      | .ok clientset =>
        let detected := (detectPlatform env.platforms).1
        let platform := detected.getD env.generic
        match platform.loadResult with
        | some e => ⟨.error e, none, 1, true⟩
        | none =>
          let c : Cluster := ⟨clientset, restConfig, platform⟩
          ⟨.ok c, some c, 1, true⟩

/-! ### `internal/cli/clients/gitea/gitea.go` -/

/-- Base64 alphabet (RFC 4648, standard encoding), as used by Go's
`base64.StdEncoding`. -/
def base64Alphabet : List Char :=
  ("ABCDEFGHIJKLMNOPQRSTUVWXYZabcdefghijklmnopqrstuvwxyz0123456789+/").toList

def base64Digit (n : Nat) : Char := base64Alphabet.getD n '?'

/-- Standard base64 of a byte sequence (values < 256), with `=` padding. -/
def base64Chunks : List Nat → List Char
  | a :: b :: c :: rest =>
    base64Digit (a / 4) :: base64Digit (a % 4 * 16 + b / 16) ::
    base64Digit (b % 16 * 4 + c / 64) :: base64Digit (c % 64) ::
    base64Chunks rest
  | [a, b] =>
    [base64Digit (a / 4), base64Digit (a % 4 * 16 + b / 16),
     base64Digit (b % 16 * 4), '=']
  | [a] => [base64Digit (a / 4), base64Digit (a % 4 * 16), '=', '=']
  | [] => []

/-- `base64.StdEncoding.EncodeToString([]byte(s))`: base64 of the UTF-8
bytes of `s`. -/
def base64EncodeToString (s : String) : String :=
  String.mk (base64Chunks (s.toUTF8.toList.map UInt8.toNat))

structure RegistryCredentials where
  URL : String
  Username : String
  Password : String
deriving DecidableEq, Repr

structure ContainerRegistryAuth where
  Auth : String
  Username : String
  Password : String
deriving DecidableEq, Repr

/-- The `auths` map of a docker config, as an association list with the
lookup/overwrite semantics of a Go map. -/
def AuthsMap := List (String × ContainerRegistryAuth)

/-- `m[k] = v` on a Go map: any existing entry for `k` is replaced. -/
def authsInsert : AuthsMap → String → ContainerRegistryAuth → AuthsMap
  | [], k, v => [(k, v)]
  | p :: ps, k, v => if p.1 = k then (k, v) :: ps else p :: authsInsert ps k v

/-- `m[k]` on a Go map. -/
def authsLookup : AuthsMap → String → Option ContainerRegistryAuth
  | [], _ => none
  | p :: ps, u => if p.1 = u then some p.2 else authsLookup ps u

structure ConnectionDetails where
  RegistryCredentials : List RegistryCredentials
  Namespace : String
deriving DecidableEq, Repr

/-- The auth entry built for one credential inside `DockerConfigJSON`. -/
def credAuth (r : RegistryCredentials) : ContainerRegistryAuth :=
  ⟨base64EncodeToString (r.Username ++ ":" ++ r.Password), r.Username, r.Password⟩

/-- The loop of `ConnectionDetails.DockerConfigJSON`: walk the credentials,
failing at the first empty URL, otherwise storing the auth entry at the
credential's URL. -/
def dockerConfigAuths (acc : AuthsMap) :
    List RegistryCredentials → Except String AuthsMap
  | [] => .ok acc
  | r :: rest =>
    if r.URL = "" then .error "url must be specified"
    else dockerConfigAuths (authsInsert acc r.URL (credAuth r)) rest

/-- Embedding of `ConnectionDetails.DockerConfigJSON`; the result is the
`Auths` map of the returned object. -/
def ConnectionDetails.DockerConfigJSON (d : ConnectionDetails) :
    Except String AuthsMap :=
  dockerConfigAuths [] d.RegistryCredentials

/-- `leadsChars needle hay`: `needle` occurs at the start of `hay`. -/
def leadsChars : List Char → List Char → Bool
  | [], _ => true
  | _ :: _, [] => false
  | a :: as, b :: bs => a == b && leadsChars as bs

/-- `insideChars needle hay`: `needle` occurs somewhere inside `hay`.  This
models `regexp.MatchString` for the pattern `127\.0\.0\.1`, whose dots are
escaped, so it matches exactly the literal substring. -/
def insideChars (needle : List Char) : List Char → Bool
  | [] => needle.isEmpty
  | b :: bs => leadsChars needle (b :: bs) || insideChars needle bs

/-- The compiled regex `127\.0\.0\.1` applied to a URL. -/
def matchesLocalhost (s : String) : Bool :=
  insideChars ("127.0.0.1").toList s.toList

/-- Embedding of `ConnectionDetails.PublicRegistryURL`: the first credential
URL not matching `127\.0\.0\.1`, or empty.  (`regexp.Compile` of the fixed
valid pattern cannot fail, so the error path is dead.) -/
def ConnectionDetails.PublicRegistryURL (d : ConnectionDetails) : String :=
  match d.RegistryCredentials.find? (fun c => !matchesLocalhost c.URL) with
  | some c => c.URL
  | none => ""

/-- Embedding of `ConnectionDetails.PrivateRegistryURL`: the first credential
URL matching `127\.0\.0\.1`, or empty. -/
def ConnectionDetails.PrivateRegistryURL (d : ConnectionDetails) : String :=
  match d.RegistryCredentials.find? (fun c => matchesLocalhost c.URL) with
  | some c => c.URL
  | none => ""

/-- Embedding of `ConnectionDetails.ReplaceWithInternalRegistry`,
instrumented with whether the image URL was parsed.  `extract` models
`ExtractImageParts` (the external image-reference parser), returning the
registry and name parts.  When no localhost URL is configured the function
returns the image URL unchanged before ever parsing it. -/
def ConnectionDetails.ReplaceWithInternalRegistry (d : ConnectionDetails)
    (extract : String → Except String (String × String)) (imageURL : String) :
    (String × Option String) × Bool :=
  let privateURL := d.PrivateRegistryURL
  if privateURL = "" then ((imageURL, none), false)
  else
    let publicURL := d.PublicRegistryURL
    match extract imageURL with
    | .error e => ((imageURL, some e), true)
    | .ok (imageRegistryURL, _) =>
      if imageRegistryURL = publicURL then
        ((imageURL.replace imageRegistryURL privateURL, none), true)
      else ((imageURL, none), true)

/-! ## Theorems -/

/-! ### Poll driver lemmas -/

theorem pollImmediateAux_hard {E : Type} (cond : Nat → Bool × Option E)
    (i fuel : Nat) (b : Bool) (e : E) (h : cond i = (b, some e)) :
    pollImmediateAux cond i fuel = (.hardError e, i + 1) := by
  conv_lhs => unfold pollImmediateAux
  rw [h]
  cases b <;> cases fuel <;> rfl

theorem pollImmediateAux_success {E : Type} (cond : Nat → Bool × Option E)
    (i fuel : Nat) (h : cond i = (true, none)) :
    pollImmediateAux cond i fuel = (.success, i + 1) := by
  conv_lhs => unfold pollImmediateAux
  rw [h]

theorem pollImmediateAux_notYet {E : Type} (cond : Nat → Bool × Option E)
    (i fuel : Nat) (h : cond i = (false, none)) :
    pollImmediateAux cond i (fuel + 1) = pollImmediateAux cond (i + 1) fuel := by
  conv_lhs => unfold pollImmediateAux
  rw [h]

theorem pollImmediateAux_expire {E : Type} (cond : Nat → Bool × Option E)
    (i : Nat) (h : cond i = (false, none)) :
    pollImmediateAux cond i 0 = (.timeout, i + 1) := by
  conv_lhs => unfold pollImmediateAux
  rw [h]

/-- Skipping a run of not-yet evaluations: when the first `k` evaluations
from `i` are all `(false, nil)` and the budget allows them, the poll
behaves as if started `k` steps later with `k` fewer intervals. -/
theorem pollImmediateAux_skip {E : Type} (cond : Nat → Bool × Option E) :
    ∀ (k i fuel : Nat), (∀ j, j < k → cond (i + j) = (false, none)) → k ≤ fuel →
      pollImmediateAux cond i fuel = pollImmediateAux cond (i + k) (fuel - k) := by
  intro k
  induction k with
  | zero =>
    intro i fuel _ _
    simp
  | succ k ih =>
    intro i fuel h hk
    obtain ⟨fuel', rfl⟩ : ∃ f, fuel = f + 1 := ⟨fuel - 1, by omega⟩
    have h0 : cond i = (false, none) := by simpa using h 0 (by omega)
    rw [pollImmediateAux_notYet cond i fuel' h0]
    have hrest : ∀ j, j < k → cond (i + 1 + j) = (false, none) := by
      intro j hj
      have e1 : i + 1 + j = i + (j + 1) := by omega
      rw [e1]
      exact h (j + 1) (by omega)
    have hres := ih (i + 1) fuel' hrest (by omega)
    have e1 : i + 1 + k = i + (k + 1) := by omega
    have e2 : fuel' - k = fuel' + 1 - (k + 1) := by omega
    rw [e1, e2] at hres
    exact hres

/-- C8: the poll driver evaluates the condition immediately: satisfaction on
the very first evaluation returns success after exactly one evaluation, for
any interval budget (including zero intervals, i.e. without waiting an
interval); and a non-nil error from any evaluation, the first included, is
returned immediately and unchanged after exactly that evaluation, without
waiting out the remaining timeout budget. -/
theorem C8_poll_driver {E : Type} :
    (∀ (cond : Nat → Bool × Option E) (fuel : Nat),
      cond 0 = (true, none) → pollImmediate cond fuel = (.success, 1)) ∧
    (∀ (cond : Nat → Bool × Option E) (fuel : Nat) (b : Bool) (e : E),
      cond 0 = (b, some e) → pollImmediate cond fuel = (.hardError e, 1)) ∧
    (∀ (cond : Nat → Bool × Option E) (i fuel : Nat) (b : Bool) (e : E),
      (∀ j, j < i → cond j = (false, none)) → cond i = (b, some e) → i ≤ fuel →
      pollImmediate cond fuel = (.hardError e, i + 1)) := by
  refine ⟨?_, ?_, ?_⟩
  · intro cond fuel h
    exact pollImmediateAux_success cond 0 fuel h
  · intro cond fuel b e h
    exact pollImmediateAux_hard cond 0 fuel b e h
  · intro cond i fuel b e hprev hi hfuel
    unfold pollImmediate
    rw [pollImmediateAux_skip cond i 0 fuel (by simpa using hprev) hfuel]
    have e0 : (0 : Nat) + i = i := by omega
    rw [e0]
    exact pollImmediateAux_hard cond i (fuel - i) b e hi

/-- C8 witness: a condition true at once succeeds with one evaluation even
with a zero interval budget; a condition erroring at its third evaluation
aborts with that error after three evaluations though budget remains. -/
theorem C8_poll_driver_witness :
    pollImmediate (fun _ => ((true, none) : Bool × Option K8sError)) 0 =
      (.success, 1) ∧
    pollImmediate
      (fun j => if j < 2 then ((false, none) : Bool × Option K8sError)
                else (false, some (K8sError.other 3))) 5 =
      (.hardError (K8sError.other 3), 3) :=
  ⟨C8_poll_driver.1 (fun _ => (true, none)) 0 rfl,
   C8_poll_driver.2.2
     (fun j => if j < 2 then (false, none) else (false, some (K8sError.other 3)))
     2 5 false (K8sError.other 3)
     (by intro j hj; simp [hj]) (by simp) (by omega)⟩

/-- C2: in the two-phase CRD wait, a not-found read during the existence
phase yields another poll iteration (no error), while any read error during
the establishment phase aborts that poll as a hard error with that error;
and when the existence phase ends in a timeout, the establishment-phase
condition is evaluated zero times and the existence phase's error is
returned. -/
theorem C2_wait_for_crd :
    (∀ (get1 : Nat → Except K8sError CRD) (i fuel : Nat) (e : K8sError),
      get1 i = .error e → e.isNotFound = true →
      crdExistenceCond get1 i = (false, none) ∧
      pollImmediateAux (crdExistenceCond get1) i (fuel + 1) =
        pollImmediateAux (crdExistenceCond get1) (i + 1) fuel) ∧
    (∀ (get2 : Nat → Except K8sError CRD) (i fuel : Nat) (e : K8sError),
      get2 i = .error e →
      crdEstablishedCond get2 i = (false, some e) ∧
      pollImmediateAux (crdEstablishedCond get2) i fuel = (.hardError e, i + 1)) ∧
    (∀ (get1 get2 : Nat → Except K8sError CRD) (fuel : Nat),
      (pollImmediate (crdExistenceCond get1) fuel).1 = .timeout →
      WaitForCRD get1 get2 fuel = (.timeout, 0)) := by
  refine ⟨?_, ?_, ?_⟩
  · intro get1 i fuel e he hnf
    have hc : crdExistenceCond get1 i = (false, none) := by
      unfold crdExistenceCond
      rw [he]
      simp [hnf]
    exact ⟨hc, pollImmediateAux_notYet _ i fuel hc⟩
  · intro get2 i fuel e he
    have hc : crdEstablishedCond get2 i = (false, some e) := by
      unfold crdEstablishedCond
      rw [he]
    exact ⟨hc, pollImmediateAux_hard _ i fuel false e hc⟩
  · intro get1 get2 fuel h
    unfold WaitForCRD
    cases hp : pollImmediate (crdExistenceCond get1) fuel with
    | mk r n =>
      rw [hp] at h
      simp only at h
      subst h
      rfl

/-- C2 witness: concrete traces exercising all three conjuncts. -/
theorem C2_wait_for_crd_witness :
    crdExistenceCond (fun _ => .error .notFound) 0 = (false, none) ∧
    crdEstablishedCond (fun _ => .error (K8sError.other 4)) 0 =
      (false, some (K8sError.other 4)) ∧
    WaitForCRD (fun _ => .error .notFound) (fun _ => .ok ⟨[]⟩) 2 =
      (.timeout, 0) :=
  ⟨(C2_wait_for_crd.1 (fun _ => .error .notFound) 0 0 .notFound rfl rfl).1,
   (C2_wait_for_crd.2.1 (fun _ => .error (K8sError.other 4)) 0 0
      (K8sError.other 4) rfl).1,
   C2_wait_for_crd.2.2 (fun _ => .error .notFound) (fun _ => .ok ⟨[]⟩) 2 rfl⟩

/-- C1: a successful `GetCluster` call caches its result, and every later
call returns the identical cached cluster with zero platform detections and
zero `Load` invocations, whatever the environment then looks like; a
failing call (kubeconfig failure, clientset failure, or platform `Load`
failure) caches nothing, so the next call behaves exactly like a call on a
fresh process (full initialization from scratch). -/
theorem C1_get_cluster_memoization :
    (∀ (env : ClusterEnv) (c : Cluster), (GetCluster env none).result = .ok c →
      (GetCluster env none).memo = some c ∧
      ∀ env' : ClusterEnv, GetCluster env' (some c) = ⟨.ok c, some c, 0, false⟩) ∧
    (∀ (env : ClusterEnv) (e : K8sError), (GetCluster env none).result = .error e →
      (GetCluster env none).memo = none ∧
      ∀ env' : ClusterEnv,
        GetCluster env' ((GetCluster env none).memo) = GetCluster env' none) := by
  constructor
  · rintro ⟨kc, nc, ps, gen⟩ c hok
    refine ⟨?_, fun env' => rfl⟩
    cases kc with
    | error e0 => simp [GetCluster] at hok
    | ok rc =>
      cases nc with
      | error e0 => simp [GetCluster] at hok
      | ok cs =>
        cases hl : ((detectPlatform ps).1.getD gen).loadResult with
        | some e0 => simp [GetCluster, hl] at hok
        | none =>
          simp only [GetCluster, hl] at hok ⊢
          injection hok with hok
          rw [hok]
  · rintro ⟨kc, nc, ps, gen⟩ e herr
    have hmemo : (GetCluster ⟨kc, nc, ps, gen⟩ none).memo = none := by
      cases kc with
      | error e0 => rfl
      | ok rc =>
        cases nc with
        | error e0 => rfl
        | ok cs =>
          cases hl : ((detectPlatform ps).1.getD gen).loadResult with
          | some e0 => simp [GetCluster, hl]
          | none => simp [GetCluster, hl] at herr
    exact ⟨hmemo, fun env' => by rw [hmemo]⟩

/-- C1 witness: a successful call caches its cluster; a later call in a
now-broken environment still returns the cached cluster untouched; a
failing call caches nothing. -/
theorem C1_get_cluster_memoization_witness :
    (GetCluster ⟨.ok 1, .ok 2, [⟨7, false, none⟩], ⟨0, false, none⟩⟩ none).memo =
      some ⟨2, 1, ⟨0, false, none⟩⟩ ∧
    GetCluster ⟨.error (K8sError.other 9), .ok 2, [], ⟨0, false, none⟩⟩
        (some ⟨2, 1, ⟨0, false, none⟩⟩) =
      ⟨.ok ⟨2, 1, ⟨0, false, none⟩⟩, some ⟨2, 1, ⟨0, false, none⟩⟩, 0, false⟩ ∧
    (GetCluster ⟨.error (K8sError.other 9), .ok 2, [], ⟨0, false, none⟩⟩
        none).memo = none :=
  ⟨(C1_get_cluster_memoization.1 ⟨.ok 1, .ok 2, [⟨7, false, none⟩], ⟨0, false, none⟩⟩
      ⟨2, 1, ⟨0, false, none⟩⟩ rfl).1,
   (C1_get_cluster_memoization.1 ⟨.ok 1, .ok 2, [⟨7, false, none⟩], ⟨0, false, none⟩⟩
      ⟨2, 1, ⟨0, false, none⟩⟩ rfl).2
     ⟨.error (K8sError.other 9), .ok 2, [], ⟨0, false, none⟩⟩,
   (C1_get_cluster_memoization.2 ⟨.error (K8sError.other 9), .ok 2, [], ⟨0, false, none⟩⟩
      (K8sError.other 9) rfl).1⟩

/-- C5: platform detection walks the ordered strategy list, selects the
first platform whose probe answers true and invokes no probe after it; when
no probe answers true every probe ran, no platform is selected, and a
`GetCluster` construction falls back to the generic platform without error;
the selected platform's `Load` runs exactly once during construction and
never on a memoized call. -/
theorem C5_detect_platform :
    (∀ (l₁ : List Platform) (p : Platform) (l₂ : List Platform),
      (∀ q ∈ l₁, q.detect = false) → p.detect = true →
      detectPlatform (l₁ ++ p :: l₂) = (some p, l₁ ++ [p])) ∧
    (∀ ps : List Platform, (∀ q ∈ ps, q.detect = false) →
      detectPlatform ps = (none, ps)) ∧
    (∀ (env : ClusterEnv) (rc cs : Nat),
      env.kubeConfig = .ok rc → env.newForConfig = .ok cs →
      (∀ q ∈ env.platforms, q.detect = false) → env.generic.loadResult = none →
      (GetCluster env none).result = .ok ⟨cs, rc, env.generic⟩) ∧
    (∀ (env : ClusterEnv) (rc cs : Nat),
      env.kubeConfig = .ok rc → env.newForConfig = .ok cs →
      (GetCluster env none).loadCalls = 1) ∧
    (∀ (env : ClusterEnv) (c : Cluster),
      (GetCluster env (some c)).loadCalls = 0 ∧
      (GetCluster env (some c)).detectRan = false) := by
  have hnone : ∀ ps : List Platform, (∀ q ∈ ps, q.detect = false) →
      detectPlatform ps = (none, ps) := by
    intro ps h
    induction ps with
    | nil => rfl
    | cons q qs ih =>
      have hq : q.detect = false := h q (by simp)
      have := ih (fun r hr => h r (by simp [hr]))
      simp [detectPlatform, hq, this]
  refine ⟨?_, hnone, ?_, ?_, ?_⟩
  · intro l₁ p l₂ h hp
    induction l₁ with
    | nil => simp [detectPlatform, hp]
    | cons q qs ih =>
      have hq : q.detect = false := h q (by simp)
      have := ih (fun r hr => h r (by simp [hr]))
      simp [detectPlatform, hq, this]
  · rintro ⟨kc, nc, ps, gen⟩ rc cs hkc hnc hdet hload
    simp only at hkc hnc hdet hload
    subst hkc hnc
    simp [GetCluster, hnone ps hdet, hload]
  · rintro ⟨kc, nc, ps, gen⟩ rc cs hkc hnc
    simp only at hkc hnc
    subst hkc hnc
    cases hl : ((detectPlatform ps).1.getD gen).loadResult with
    | some e => simp [GetCluster, hl]
    | none => simp [GetCluster, hl]
  · intro env c
    exact ⟨rfl, rfl⟩

/-- C5 witness: with strategies A, B, C where only B detects, B is selected
and C's probe never runs; with none detecting, generic is used and `Load`
ran once; a memoized call runs no probe and no `Load`. -/
theorem C5_detect_platform_witness :
    detectPlatform [⟨1, false, none⟩, ⟨2, true, none⟩, ⟨3, false, none⟩] =
      (some ⟨2, true, none⟩, [⟨1, false, none⟩, ⟨2, true, none⟩]) ∧
    (GetCluster ⟨.ok 1, .ok 2, [⟨1, false, none⟩], ⟨0, false, none⟩⟩ none).result =
      .ok ⟨2, 1, ⟨0, false, none⟩⟩ ∧
    (GetCluster ⟨.ok 1, .ok 2, [⟨1, false, none⟩], ⟨0, false, none⟩⟩ none).loadCalls = 1 ∧
    (GetCluster ⟨.ok 1, .ok 2, [⟨1, false, none⟩], ⟨0, false, none⟩⟩
        (some ⟨2, 1, ⟨0, false, none⟩⟩)).loadCalls = 0 :=
  ⟨C5_detect_platform.1 [⟨1, false, none⟩] ⟨2, true, none⟩ [⟨3, false, none⟩]
      (by intro q hq; simp at hq; simp [hq]) rfl,
   C5_detect_platform.2.2.1 ⟨.ok 1, .ok 2, [⟨1, false, none⟩], ⟨0, false, none⟩⟩ 1 2
      rfl rfl (by intro q hq; simp at hq; simp [hq]) rfl,
   C5_detect_platform.2.2.2.1 ⟨.ok 1, .ok 2, [⟨1, false, none⟩], ⟨0, false, none⟩⟩ 1 2
      rfl rfl,
   (C5_detect_platform.2.2.2.2 ⟨.ok 1, .ok 2, [⟨1, false, none⟩], ⟨0, false, none⟩⟩
      ⟨2, 1, ⟨0, false, none⟩⟩).1⟩

/-- C3: the job-done condition is satisfied (returns `(true, nil)`) exactly
when the job read succeeds and some status condition has status True and
type Complete or Failed; a successful read with no such condition yields
`(false, nil)` (try again); a read error is propagated as a hard error. -/
theorem C3_is_job_done (get : Nat → Except K8sError Job) (i : Nat) :
    (IsJobDone get i = (true, none) ↔
      ∃ job, get i = .ok job ∧ ∃ c ∈ job.status.conditions,
        c.status = ConditionTrue ∧ (c.type = JobComplete ∨ c.type = JobFailed)) ∧
    (∀ job, get i = .ok job →
      (∀ c ∈ job.status.conditions,
        ¬(c.status = ConditionTrue ∧ (c.type = JobComplete ∨ c.type = JobFailed))) →
      IsJobDone get i = (false, none)) ∧
    (∀ e, get i = .error e → IsJobDone get i = (false, some e)) := by
  refine ⟨?_, ?_, ?_⟩
  · unfold IsJobDone
    cases h : get i with
    | error e => simp
    | ok job =>
      simp only [Prod.mk.injEq, and_true, List.any_eq_true, Bool.and_eq_true,
        Bool.or_eq_true, beq_iff_eq, Except.ok.injEq]
      constructor
      · rintro ⟨c, hc, hs, ht⟩
        exact ⟨job, rfl, c, hc, hs, ht.symm⟩
      · rintro ⟨job', hj, c, hc, hs, ht⟩
        cases hj
        exact ⟨c, hc, hs, ht.symm⟩
  · intro job hj hnone
    unfold IsJobDone
    rw [hj]
    simp only [Prod.mk.injEq, and_true, List.any_eq_false, Bool.and_eq_true,
      Bool.or_eq_true, beq_iff_eq, not_and, not_or]
    intro c hc hs
    exact ⟨fun ht => hnone c hc ⟨hs, Or.inr ht⟩,
           fun ht => hnone c hc ⟨hs, Or.inl ht⟩⟩
  · intro e he
    unfold IsJobDone
    rw [he]

/-- C3 witness: a job with a Complete/True condition satisfies the
condition. -/
theorem C3_is_job_done_witness :
    IsJobDone (fun _ => .ok ⟨⟨[⟨"Complete", "True"⟩]⟩⟩) 0 = (true, none) :=
  (C3_is_job_done (fun _ => .ok ⟨⟨[⟨"Complete", "True"⟩]⟩⟩) 0).1.mpr
    ⟨⟨⟨[⟨"Complete", "True"⟩]⟩⟩, rfl, ⟨"Complete", "True"⟩, by simp, rfl, Or.inl rfl⟩

/-- C4: the pod-absent condition returns satisfied `(true, nil)` on any list
error whatsoever; it returns `(false, nil)` exactly when the list succeeds
with at least one pod; it returns satisfied on a successful empty list; and
its error component is always nil. -/
theorem C4_pod_does_not_exist (list : Except K8sError PodList) :
    (PodDoesNotExist list).2 = none ∧
    (∀ e, list = .error e → PodDoesNotExist list = (true, none)) ∧
    (PodDoesNotExist list = (false, none) ↔
      ∃ pl, list = .ok pl ∧ pl.items ≠ []) ∧
    (∀ pl, list = .ok pl → pl.items = [] → PodDoesNotExist list = (true, none)) := by
  refine ⟨?_, ?_, ?_, ?_⟩
  · unfold PodDoesNotExist
    cases list with
    | error e => rfl
    | ok pl =>
      by_cases h : pl.items.length > 0 <;> simp [h]
  · intro e he
    unfold PodDoesNotExist
    rw [he]
  · cases list with
    | error e =>
      constructor
      · intro hcontra
        simp [PodDoesNotExist] at hcontra
      · rintro ⟨pl, hpl, _⟩
        simp at hpl
    | ok pl =>
      by_cases h : pl.items.length > 0
      · constructor
        · intro _
          refine ⟨pl, rfl, ?_⟩
          intro hnil
          rw [hnil] at h
          simp at h
        · intro _
          simp [PodDoesNotExist, h]
      · constructor
        · intro hcontra
          simp [PodDoesNotExist, h] at hcontra
        · rintro ⟨pl', hpl, hne⟩
          injection hpl with hpl
          subst hpl
          exact absurd (List.length_pos.mpr hne) h
  · intro pl hpl hempty
    unfold PodDoesNotExist
    rw [hpl]
    simp [hempty]

/-- C4 witness: at a failing list call the condition reports satisfied. -/
theorem C4_pod_does_not_exist_witness :
    PodDoesNotExist (.error (K8sError.other 7)) = (true, none) :=
  (C4_pod_does_not_exist (.error (K8sError.other 7))).2.1 (K8sError.other 7) rfl

/-- C7: the namespace-absent condition's satisfaction is exactly the
negation of what `NamespaceExists` reports: not-satisfied while the
namespace read succeeds, satisfied as soon as the read reports not-found. -/
theorem C7_namespace_does_not_exist (get : Except K8sError Unit) :
    (NamespaceDoesNotExist get).1 = !(NamespaceExists get).1 ∧
    (NamespaceDoesNotExist get).2 = (NamespaceExists get).2 ∧
    (∀ u, get = .ok u → NamespaceDoesNotExist get = (false, none)) ∧
    (get = .error .notFound → NamespaceDoesNotExist get = (true, none)) := by
  refine ⟨rfl, rfl, ?_, ?_⟩
  · intro u hu
    unfold NamespaceDoesNotExist NamespaceExists
    rw [hu]
    rfl
  · intro h
    unfold NamespaceDoesNotExist NamespaceExists
    rw [h]
    rfl

/-- C7 witness: an existing namespace is not absent; a not-found namespace
is absent. -/
theorem C7_namespace_does_not_exist_witness :
    NamespaceDoesNotExist (.ok ()) = (false, none) ∧
    NamespaceDoesNotExist (.error .notFound) = (true, none) :=
  ⟨(C7_namespace_does_not_exist (.ok ())).2.2.1 () rfl,
   (C7_namespace_does_not_exist (.error .notFound)).2.2.2 rfl⟩

/-- C6: the secret wait treats a not-found read as not-yet (the loop moves
to the next iteration with no error surfaced), aborts with any other read
error as a hard error, and on a successful read ends the wait returning the
secret just read with a nil error. -/
theorem C6_wait_for_secret (get : Nat → Except K8sError Secret) (i fuel : Nat) :
    (∀ e, get i = .error e → e.isNotFound = true →
      WaitForSecretAux get i (fuel + 1) = WaitForSecretAux get (i + 1) fuel) ∧
    (∀ e, get i = .error e → e.isNotFound = false →
      WaitForSecretAux get i fuel = (none, .hardError e)) ∧
    (∀ s, get i = .ok s → WaitForSecretAux get i fuel = (some s, .success)) := by
  refine ⟨?_, ?_, ?_⟩
  · intro e he hnf
    conv_lhs => unfold WaitForSecretAux
    rw [he]
    simp [hnf]
  · intro e he hnf
    cases fuel with
    | zero =>
      conv_lhs => unfold WaitForSecretAux
      rw [he]
      simp [hnf]
    | succ fuel' =>
      conv_lhs => unfold WaitForSecretAux
      rw [he]
      simp [hnf]
  · intro s hs
    cases fuel with
    | zero =>
      conv_lhs => unfold WaitForSecretAux
      rw [hs]
    | succ fuel' =>
      conv_lhs => unfold WaitForSecretAux
      rw [hs]

/-- C6 witness: a not-found read retries, a non-not-found error aborts with
that error, and a successful read returns the secret. -/
theorem C6_wait_for_secret_witness :
    WaitForSecretAux (fun j => if j = 0 then .error .notFound else .ok ⟨5⟩) 0 3 =
      WaitForSecretAux (fun j => if j = 0 then .error .notFound else .ok ⟨5⟩) 1 2 ∧
    WaitForSecretAux (fun _ => .error (K8sError.other 2)) 0 3 =
      (none, .hardError (K8sError.other 2)) ∧
    WaitForSecretAux (fun _ => .ok ⟨5⟩) 0 3 = (some ⟨5⟩, .success) :=
  ⟨(C6_wait_for_secret (fun j => if j = 0 then .error .notFound else .ok ⟨5⟩) 0 2).1
      .notFound rfl rfl,
   (C6_wait_for_secret (fun _ => .error (K8sError.other 2)) 0 3).2.1
      (K8sError.other 2) rfl rfl,
   (C6_wait_for_secret (fun _ => .ok ⟨5⟩) 0 3).2.2 ⟨5⟩ rfl⟩

/-! ### Docker config map lemmas -/

theorem authsLookup_insert (m : AuthsMap) (k u : String) (v : ContainerRegistryAuth) :
    authsLookup (authsInsert m k v) u = if u = k then some v else authsLookup m u := by
  induction m with
  | nil =>
    by_cases h : u = k
    · simp [authsInsert, authsLookup, h]
    · have hku : ¬(k = u) := fun hc => h hc.symm
      simp [authsInsert, authsLookup, h, hku]
  | cons p ps ih =>
    by_cases hpk : p.1 = k
    · by_cases h : u = k
      · subst h
        simp [authsInsert, authsLookup, hpk]
      · have hku : ¬(k = u) := fun hc => h hc.symm
        have hpu : ¬(p.1 = u) := fun hc => h (hc ▸ hpk)
        simp [authsInsert, authsLookup, hpk, h, hku, hpu]
    · by_cases hpu : p.1 = u
      · have h : ¬(u = k) := fun hc => hpk (hpu.trans hc)
        simp [authsInsert, authsLookup, hpk, hpu, h]
      · simp [authsInsert, authsLookup, hpk, hpu, ih]

theorem dockerConfigAuths_error_iff :
    ∀ (rs : List RegistryCredentials) (acc : AuthsMap),
      (∃ e, dockerConfigAuths acc rs = .error e) ↔ ∃ r ∈ rs, r.URL = "" := by
  intro rs
  induction rs with
  | nil =>
    intro acc
    simp [dockerConfigAuths]
  | cons r rest ih =>
    intro acc
    by_cases hu : r.URL = ""
    · simp [dockerConfigAuths, hu]
    · simp only [dockerConfigAuths, if_neg hu, List.mem_cons]
      rw [ih]
      constructor
      · rintro ⟨r', hr', hr'u⟩
        exact ⟨r', Or.inr hr', hr'u⟩
      · rintro ⟨r', hr', hr'u⟩
        rcases hr' with h1 | h2
        · exact absurd (h1 ▸ hr'u) hu
        · exact ⟨r', h2, hr'u⟩

/-- The entry finally stored at key `u` is the auth entry of the last
credential in the list whose URL is `u` (later credentials overwrite
earlier ones with the same URL), falling back to what the accumulator
already held. -/
theorem dockerConfigAuths_lookup :
    ∀ (rs : List RegistryCredentials) (acc : AuthsMap) (m : AuthsMap),
      dockerConfigAuths acc rs = .ok m → ∀ u : String,
      authsLookup m u =
        match (rs.filter (fun r => r.URL = u)).getLast? with
        | some r' => some (credAuth r')
        | none => authsLookup acc u := by
  intro rs
  induction rs with
  | nil =>
    intro acc m hm u
    injection hm with hm
    subst hm
    rfl
  | cons r rest ih =>
    intro acc m hm u
    by_cases hu : r.URL = ""
    · simp [dockerConfigAuths, hu] at hm
    · rw [dockerConfigAuths, if_neg hu] at hm
      have hstep := ih (authsInsert acc r.URL (credAuth r)) m hm u
      rw [authsLookup_insert] at hstep
      by_cases hru : r.URL = u
      · subst hru
        rw [List.filter_cons]
        rw [if_pos (by simp : decide (r.URL = r.URL) = true)]
        cases hfil : rest.filter (fun x => decide (x.URL = r.URL)) with
        | nil =>
          rw [hfil] at hstep
          simpa using hstep
        | cons x xs =>
          rw [hfil] at hstep
          rw [List.getLast?_cons_cons]
          cases hx : (x :: xs).getLast? with
          | none =>
            rw [List.getLast?_eq_getLast_of_ne_nil (by simp)] at hx
            cases hx
          | some y =>
            rw [hx] at hstep
            exact hstep
      · rw [List.filter_cons]
        have hdec : ¬(decide (r.URL = u) = true) := by simpa using hru
        rw [if_neg hdec]
        have hne : ¬(u = r.URL) := fun hc => hru hc.symm
        rw [if_neg hne] at hstep
        exact hstep

/-- C9 counterexample: with two credentials sharing the URL `u`, the entry
stored at `u` carries the second credential's username, not the first's,
although the first credential is in the list — refuting the claim that for
every credential the map holds an entry with that credential's data. -/
theorem C9_docker_config_counterexample :
    ∃ m, ConnectionDetails.DockerConfigJSON ⟨[⟨"u", "a", "p1"⟩, ⟨"u", "b", "p2"⟩], "ws"⟩ =
        .ok m ∧
      (⟨"u", "a", "p1"⟩ : RegistryCredentials) ∈
        (⟨[⟨"u", "a", "p1"⟩, ⟨"u", "b", "p2"⟩], "ws"⟩ : ConnectionDetails).RegistryCredentials ∧
      (authsLookup m "u").map ContainerRegistryAuth.Username ≠ some "a" := by
  refine ⟨[("u", credAuth ⟨"u", "b", "p2"⟩)], rfl, by simp, ?_⟩
  intro hc
  simp [authsLookup, List.find?, credAuth] at hc

/-- C9 (amended): `DockerConfigJSON` errors exactly when some credential has
an empty URL; on success the `Auths` map holds, for every credential `r`, an
entry at key `r.URL`, and that entry is built from the last credential in
the list whose URL equals `r.URL`: its `Username` and `Password` are that
credential's and its `Auth` is the standard base64 encoding of
`Username ++ ":" ++ Password`. -/
theorem C9_docker_config_json (d : ConnectionDetails) :
    ((∃ e, ConnectionDetails.DockerConfigJSON d = .error e) ↔
      ∃ r ∈ d.RegistryCredentials, r.URL = "") ∧
    (∀ m, ConnectionDetails.DockerConfigJSON d = .ok m →
      ∀ r ∈ d.RegistryCredentials, ∃ r',
        r' ∈ d.RegistryCredentials ∧ r'.URL = r.URL ∧
        (d.RegistryCredentials.filter (fun x => x.URL = r.URL)).getLast? = some r' ∧
        authsLookup m r.URL =
          some ⟨base64EncodeToString (r'.Username ++ ":" ++ r'.Password),
                r'.Username, r'.Password⟩) := by
  constructor
  · exact dockerConfigAuths_error_iff d.RegistryCredentials []
  · intro m hm r hr
    have hlook := dockerConfigAuths_lookup d.RegistryCredentials [] m hm r.URL
    have hmem : r ∈ d.RegistryCredentials.filter (fun x => decide (x.URL = r.URL)) :=
      List.mem_filter.mpr ⟨hr, by simp⟩
    have hne : d.RegistryCredentials.filter (fun x => decide (x.URL = r.URL)) ≠ [] :=
      List.ne_nil_of_mem hmem
    cases hlast : (d.RegistryCredentials.filter (fun x => decide (x.URL = r.URL))).getLast? with
    | none =>
      cases hflt : d.RegistryCredentials.filter (fun x => decide (x.URL = r.URL)) with
      | nil => exact absurd hflt hne
      | cons a as =>
        rw [hflt, List.getLast?_eq_getLast_of_ne_nil (by simp)] at hlast
        cases hlast
    | some r' =>
      have hr'mem : r' ∈ d.RegistryCredentials.filter (fun x => decide (x.URL = r.URL)) := by
        have hmm := List.mem_getLast?_eq_getLast
          (l := d.RegistryCredentials.filter (fun x => decide (x.URL = r.URL)))
          (x := r') (by rw [hlast]; rfl)
        obtain ⟨hnil, rfl⟩ := hmm
        exact List.getLast_mem hnil
      have hr'props := List.mem_filter.mp hr'mem
      have hurl : r'.URL = r.URL := by simpa using hr'props.2
      rw [hlast] at hlook
      have hlook2 : authsLookup m r.URL =
          some ⟨base64EncodeToString (r'.Username ++ ":" ++ r'.Password),
                r'.Username, r'.Password⟩ := by
        simpa [credAuth] using hlook
      exact ⟨r', hr'props.1, hurl, rfl, hlook2⟩

/-- C9 witness: a two-credential detail set with distinct URLs succeeds and
stores each credential's entry; an empty-URL credential errors. -/
theorem C9_docker_config_json_witness :
    (∃ e, ConnectionDetails.DockerConfigJSON ⟨[⟨"", "a", "p"⟩], "ws"⟩ = .error e) ∧
    (∃ r', r' ∈ ([⟨"u", "a", "p"⟩] : List RegistryCredentials) ∧
      r'.URL = "u" ∧
      (([⟨"u", "a", "p"⟩] : List RegistryCredentials).filter
        (fun x => x.URL = "u")).getLast? = some r' ∧
      authsLookup [("u", credAuth ⟨"u", "a", "p"⟩)] "u" =
        some ⟨base64EncodeToString (r'.Username ++ ":" ++ r'.Password),
              r'.Username, r'.Password⟩) := by
  constructor
  · exact (C9_docker_config_json ⟨[⟨"", "a", "p"⟩], "ws"⟩).1.mpr
      ⟨⟨"", "a", "p"⟩, by simp, rfl⟩
  · exact (C9_docker_config_json ⟨[⟨"u", "a", "p"⟩], "ws"⟩).2
      [("u", credAuth ⟨"u", "a", "p"⟩)] rfl ⟨"u", "a", "p"⟩ (by simp)

/-- C10: when no credential URL contains the substring `127.0.0.1`,
`PrivateRegistryURL` is empty and `ReplaceWithInternalRegistry` is the
identity: any image URL is returned unchanged with a nil error, and the
image URL is never parsed (whatever the parser would have answered). -/
theorem C10_replace_with_internal_registry (d : ConnectionDetails)
    (extract : String → Except String (String × String)) (imageURL : String)
    (h : ∀ r ∈ d.RegistryCredentials, matchesLocalhost r.URL = false) :
    d.PrivateRegistryURL = "" ∧
    ConnectionDetails.ReplaceWithInternalRegistry d extract imageURL =
      ((imageURL, none), false) := by
  have hfind : d.RegistryCredentials.find? (fun c => matchesLocalhost c.URL) = none :=
    List.find?_eq_none.mpr (fun x hx => by simp [h x hx])
  have hpriv : d.PrivateRegistryURL = "" := by
    unfold ConnectionDetails.PrivateRegistryURL
    rw [hfind]
  refine ⟨hpriv, ?_⟩
  unfold ConnectionDetails.ReplaceWithInternalRegistry
  rw [hpriv]
  simp

/-- C10 witness: a single external registry credential makes the rewrite a
no-op that never consults the image parser. -/
theorem C10_replace_with_internal_registry_witness :
    (⟨[⟨"registry.example.com", "u", "p"⟩], "ws"⟩ :
        ConnectionDetails).PrivateRegistryURL = "" ∧
    ConnectionDetails.ReplaceWithInternalRegistry
        ⟨[⟨"registry.example.com", "u", "p"⟩], "ws"⟩
        (fun _ => .ok ("x", "y")) "foo/bar" =
      (("foo/bar", none), false) :=
  C10_replace_with_internal_registry ⟨[⟨"registry.example.com", "u", "p"⟩], "ws"⟩
    (fun _ => .ok ("x", "y")) "foo/bar"
    (by intro r hr; simp at hr; subst hr; rfl)

end Epinio
